import Mathlib

/-
Verification of the SAME/EAS warning synthesizer core.

The embedding follows the Rust source closely: durations, frequencies and
other control quantities (f32 in the source) are modelled as rationals,
since every finite f32 value is a rational number and the source compares
and multiplies them exactly; audio samples are modelled as real numbers
because they pass through the sine function. Sample counts are natural
numbers obtained by flooring, as in the source.
-/

namespace Same

/-- One AFSK bit: a mark or a space tone. -/
inductive AfskBit
  | Mark
  | Space
  deriving DecidableEq

instance : Inhabited AfskBit := ⟨AfskBit.Space⟩

/-- Conversion of a boolean into a bit; true maps to mark. -/
def AfskBit.ofBool (bl : Bool) : AfskBit :=
  if bl then .Mark else .Space

/-- One byte as its eight AFSK bits, least significant first. -/
structure AfskByte where
  bits : List AfskBit
  deriving DecidableEq

/-- The default byte of the source: all bits space. -/
def AfskByte.defaultByte : AfskByte :=
  ⟨List.replicate 8 AfskBit.Space⟩

/-- Decomposition of a byte value into eight bits, least significant first:
bit i is mark exactly when bit i of the byte is set. -/
def AfskByte.ofByte (byte : Nat) : AfskByte :=
  ⟨(List.range 8).map (fun i => AfskBit.ofBool (byte.testBit i))⟩

/-- The ASCII byte values of a string literal. -/
def ascii (s : String) : List Nat :=
  s.toList.map Char.toNat

/-- The sixteen-byte preamble: the byte 0xAB sixteen times. -/
def preamble : List AfskByte :=
  List.replicate 16 (AfskByte.ofByte 0xAB)

/-- The twenty-byte end-of-message marker: the preamble followed by NNNN.
The source fills a twenty-entry array by copying the preamble into the
first sixteen slots and NNNN into the last four, which is this
concatenation. -/
def tail : List AfskByte :=
  preamble ++ (ascii "NNNN").map AfskByte.ofByte

/-- A multi-frequency sine wave request: a duration in seconds and a list
of carrier frequencies. -/
structure MultiSineWave where
  seconds : ℚ
  frequencies : List ℚ
  deriving DecidableEq

/-- A single sine wave described by its cycle count and duration; the
frequency is cycles divided by seconds. -/
def MultiSineWave.single_from_cycles_and_seconds (cycles seconds : ℚ) : MultiSineWave :=
  let frequency := cycles / seconds
  ⟨seconds, [frequency]⟩

/-- The oversampled buffer of generate_samples: one more sample than the
floor of rate times duration; each entry is the sample-wise average over
the frequencies of sin of the phase, where the phase divisor uses the
oversampled count minus one so that the wave starts at phase zero. -/
noncomputable def MultiSineWave.oversampled (msw : MultiSineWave) (sample_rate : Nat) : List ℝ :=
  let samples := (⌊(sample_rate : ℚ) * msw.seconds⌋).toNat + 1
  ((List.range samples).map (fun (sample_index : ℕ) =>
      msw.frequencies.map (fun frequency =>
        let cycles := frequency * msw.seconds
        let way_through_cycle : ℚ :=
          (sample_index : ℚ) / (((samples - 1 : Nat) : ℚ) / cycles)
        Real.sin ((way_through_cycle : ℝ) * 2 * Real.pi)))).map
    (fun samples => samples.sum / (samples.length : ℝ))

/-- generate_samples: the oversampled buffer with its trailing sample
dropped. -/
noncomputable def MultiSineWave.generate_samples (msw : MultiSineWave) (sample_rate : Nat) : List ℝ :=
  let samples := (⌊(sample_rate : ℚ) * msw.seconds⌋).toNat + 1
  (msw.oversampled sample_rate).take (samples - 1)

/-- Division as f32 performs it at the averaging step: a zero divisor
yields a non-finite value, modelled as none (NaN when the dividend is
also zero, as happens for the empty average 0.0 divided by 0.0; an
infinity otherwise), and any other divisor yields the finite real
quotient. -/
noncomputable def checkedDiv (a b : ℝ) : Option ℝ :=
  if b = 0 then none else some (a / b)

/-- The oversampled buffer with the sample-wise average tracked through
checkedDiv, so that the non-finite f32 average of an empty frequency
list stays visible instead of collapsing to zero under total division;
the phase arithmetic is unchanged, its divisions having zero numerators
wherever f32 would diverge on a retained sample. -/
noncomputable def MultiSineWave.oversampledChecked (msw : MultiSineWave) (sample_rate : Nat) :
    List (Option ℝ) :=
  let samples := (⌊(sample_rate : ℚ) * msw.seconds⌋).toNat + 1
  ((List.range samples).map (fun (sample_index : ℕ) =>
      msw.frequencies.map (fun frequency =>
        let cycles := frequency * msw.seconds
        let way_through_cycle : ℚ :=
          (sample_index : ℚ) / (((samples - 1 : Nat) : ℚ) / cycles)
        Real.sin ((way_through_cycle : ℝ) * 2 * Real.pi)))).map
    (fun samples => checkedDiv samples.sum (samples.length : ℝ))

/-- generate_samples with the averaging division tracked: the checked
oversampled buffer with its trailing sample dropped. -/
noncomputable def MultiSineWave.generate_samplesChecked (msw : MultiSineWave)
    (sample_rate : Nat) : List (Option ℝ) :=
  let samples := (⌊(sample_rate : ℚ) * msw.seconds⌋).toNat + 1
  (msw.oversampledChecked sample_rate).take (samples - 1)

/-- The attention signal: a single-tone or combined-tone variant tagged
with its duration in seconds. -/
inductive AttentionSignal
  | SingleTone (seconds : ℚ)
  | CombinedTone (seconds : ℚ)
  deriving DecidableEq

/-- The single-tone constructor: absent when the duration is under eight
seconds. -/
def AttentionSignal.single (seconds : ℚ) : Option AttentionSignal :=
  if seconds < 8.0 then none else some (.SingleTone seconds)

/-- The combined-tone constructor: absent when the duration is under eight
seconds. -/
def AttentionSignal.combined (seconds : ℚ) : Option AttentionSignal :=
  if seconds < 8.0 then none else some (.CombinedTone seconds)

/-- Conversion of an attention signal into its tone request: 1050 Hz for
the single tone, 853 Hz and 960 Hz for the combined tone. -/
def AttentionSignal.toMsw (attsig : AttentionSignal) : MultiSineWave :=
  match attsig with
  | .SingleTone secs => ⟨secs, [1050.0]⟩
  | .CombinedTone secs => ⟨secs, [853.0, 960.0]⟩

/-- Conversion of a bit into its tone request: four cycles for mark,
three for space, over a fixed 1.92 millisecond bit period. -/
def AfskBit.toMsw (bit : AfskBit) : MultiSineWave :=
  let cycles : ℚ := match bit with
    | .Mark => 4.0
    | .Space => 3.0
  MultiSineWave.single_from_cycles_and_seconds cycles (1.92 / 1000)

/-- The originator code of a SAME header. -/
inductive OriginatorCode
  | Pep
  | Civ
  | Wxr
  | Eas
  | Ean
  deriving DecidableEq

/-- The three AFSK bytes of an originator code, as in the source table. -/
def OriginatorCode.to_afsk_bytes (org : OriginatorCode) : List AfskByte :=
  (match org with
   | .Pep => ascii "PEP"
   | .Civ => ascii "CIV"
   | .Wxr => ascii "WXR"
   | .Eas => ascii "WAS"
   | .Ean => ascii "EAN").map AfskByte.ofByte

/-- Modelled from the spec: the issue timestamp is a chrono DateTime in
the source, a crate outside this repository; only the day of year, hour
and minute fields reach the render through the percent-j percent-H
percent-M format. -/
structure UtcTime where
  dayOfYear : Nat
  hour : Nat
  minute : Nat
  deriving DecidableEq

/-- Modelled from the spec: a two-digit zero-padded decimal field, as
chrono renders hours and minutes. -/
def fmt2 (n : Nat) : List Nat :=
  [48 + n / 10 % 10, 48 + n % 10]

/-- Modelled from the spec: a three-digit zero-padded decimal field, as
chrono renders the day of year. -/
def fmt3 (n : Nat) : List Nat :=
  [48 + n / 100 % 10, 48 + n / 10 % 10, 48 + n % 10]

/-- Modelled from the spec: the issue time formatted as three-digit day
of year, two-digit hour, two-digit minute. -/
def formatJHM (t : UtcTime) : List Nat :=
  fmt3 t.dayOfYear ++ fmt2 t.hour ++ fmt2 t.minute

/-- The SAME header descriptor. Field widths that the source fixes at the
type level (three-byte event code, six-byte location codes, four-byte
purge time, eight-byte callsign) are carried here as plain byte lists. -/
structure Header where
  originator_code : OriginatorCode
  event_code : List Nat
  location_codes : List (List Nat)
  purge_time : List Nat
  time_of_issue : UtcTime
  callsign : List Nat
  deriving DecidableEq

/-- The builder validation on location codes: at most thirty-one codes,
otherwise an error result; the accepted list is returned unchanged. -/
def Header.validateLocationCodes (codes : List (List Nat)) : Except Unit (List (List Nat)) :=
  if codes.length ≤ 31 then Except.ok codes else Except.error ()

/-- Header render: the concatenation of the preamble, the literal framing
bytes, the fields, the formatted issue time, and the callsign with every
hyphen byte replaced by a backslash byte. -/
def Header.render (h : Header) : List AfskByte :=
  let formatted_datetime := formatJHM h.time_of_issue
  let stripped_callsign := h.callsign.map (fun char => if char = 45 then 92 else char)
  List.flatten
    [preamble,
     (ascii "ZCZC-").map AfskByte.ofByte,
     h.originator_code.to_afsk_bytes,
     (ascii "-").map AfskByte.ofByte,
     h.event_code.map AfskByte.ofByte,
     (h.location_codes.map (fun location_code =>
       (ascii "-").map AfskByte.ofByte ++ location_code.map AfskByte.ofByte)).flatten,
     (ascii "+").map AfskByte.ofByte,
     h.purge_time.map AfskByte.ofByte,
     (ascii "-").map AfskByte.ofByte,
     formatted_datetime.map AfskByte.ofByte,
     (ascii "-").map AfskByte.ofByte,
     stripped_callsign.map AfskByte.ofByte,
     (ascii "-").map AfskByte.ofByte]

/-- One section of the render plan. -/
inductive Section
  | AfskBytes (bytes : List AfskByte)
  | Silence (seconds : ℚ)
  | Tone (msw : MultiSineWave)
  | Audio (audio : List ℝ)

/-- Section render: silence is zeros for the floored sample count, audio
passes through verbatim, a tone renders through generate_samples, and a
byte list renders every bit of every byte in order as its own tone. -/
noncomputable def Section.render (s : Section) (sample_rate : Nat) : List ℝ :=
  match s with
  | .Silence seconds => List.replicate (⌊(sample_rate : ℚ) * seconds⌋).toNat (0 : ℝ)
  | .Audio audio => audio
  | .Tone msw => msw.generate_samples sample_rate
  | .AfskBytes afsk_bytes =>
    ((afsk_bytes.map AfskByte.bits).flatten.map (fun afsk_bit =>
      afsk_bit.toMsw.generate_samples sample_rate)).flatten

/-- A warning: a header plus an attention signal. -/
structure EasWarning where
  header : Header
  attention_signal : AttentionSignal

/-- EasWarning::new builds the attention signal with the fixed duration
of nine seconds and unwraps the option; the option is kept here so that
the absence of a failure is a provable statement. -/
def EasWarning.new (header : Header) (attsig_combined : Bool) : Option EasWarning :=
  (if !attsig_combined then AttentionSignal.single 9.0
   else AttentionSignal.combined 9.0).map
    (fun attention_signal => ⟨header, attention_signal⟩)

/-- The section list that construct pushes before rendering, in source
order: the header three times with one-second gaps; when a message is
present and the warning is critical, a two-second gap and the attention
tone; when a message is present, a four-second gap and the message; then
a two-second gap and the end-of-message marker three times with
one-second gaps. -/
def EasWarning.sections (w : EasWarning) (message : Option (List ℝ)) (critical : Bool) : List Section :=
  let header := w.header.render
  let eom := tail
  [Section.AfskBytes header, Section.Silence 1.0, Section.AfskBytes header,
   Section.Silence 1.0, Section.AfskBytes header]
  ++ (match message with
      | some message =>
        (if critical then [Section.Silence 2.0, Section.Tone w.attention_signal.toMsw]
         else [])
        ++ [Section.Silence 4.0, Section.Audio message]
      | none => [])
  ++ [Section.Silence 2.0, Section.AfskBytes eom, Section.Silence 1.0,
      Section.AfskBytes eom, Section.Silence 1.0, Section.AfskBytes eom]

/-- Rendering a section list: the flat concatenation of the renders. -/
noncomputable def renderSections (sections : List Section) (sample_rate : Nat) : List ℝ :=
  (sections.map (fun s => s.render sample_rate)).flatten

/-- EasWarning::construct: build the section list and render it. -/
noncomputable def EasWarning.construct (w : EasWarning) (sample_rate : Nat)
    (message : Option (List ℝ)) (critical : Bool) : List ℝ :=
  renderSections (w.sections message critical) sample_rate

/-- The originator byte table at the byte level, for stating the header
grammar. -/
def originatorAscii (org : OriginatorCode) : List Nat :=
  match org with
  | .Pep => ascii "PEP"
  | .Civ => ascii "CIV"
  | .Wxr => ascii "WXR"
  | .Eas => ascii "WAS"
  | .Ean => ascii "EAN"

/-- The header byte grammar exactly as the spec states it, at the byte
level: preamble, ZCZC dash, originator, dash, event code, dash plus each
location code, plus sign, purge time, dash, issue time, dash, callsign
with hyphens replaced by backslashes, final dash. -/
def headerBytesSpec (h : Header) : List Nat :=
  List.replicate 16 0xAB
  ++ ascii "ZCZC-"
  ++ originatorAscii h.originator_code
  ++ ascii "-"
  ++ h.event_code
  ++ (h.location_codes.map (fun location_code => ascii "-" ++ location_code)).flatten
  ++ ascii "+"
  ++ h.purge_time
  ++ ascii "-"
  ++ formatJHM h.time_of_issue
  ++ ascii "-"
  ++ h.callsign.map (fun char => if char = 45 then 92 else char)
  ++ ascii "-"

/-- The canonical composition exactly as the claim states it: header three
times with one-second gaps; exactly when critical and a message is
present, a one-second gap, the attention tone, a one-second gap; when a
message is present, the pre-message silence then the message; then a
one-second gap and the end-of-message marker three times with one-second
gaps and a final trailing silence. -/
def canonicalSections (headerBytes eomBytes : List AfskByte) (att : MultiSineWave)
    (preMessageSilence : ℚ) (message : Option (List ℝ)) (critical : Bool) : List Section :=
  [Section.AfskBytes headerBytes, Section.Silence 1.0, Section.AfskBytes headerBytes,
   Section.Silence 1.0, Section.AfskBytes headerBytes]
  ++ (if critical && message.isSome then
        [Section.Silence 1.0, Section.Tone att, Section.Silence 1.0]
      else [])
  ++ (match message with
      | some message => [Section.Silence preMessageSilence, Section.Audio message]
      | none => [])
  ++ [Section.Silence 1.0, Section.AfskBytes eomBytes, Section.Silence 1.0,
      Section.AfskBytes eomBytes, Section.Silence 1.0, Section.AfskBytes eomBytes,
      Section.Silence 1.0]

/-- The composition the code actually builds, stated against given header
and end-of-message renders: header three times with one-second gaps; when
a message is present and the warning is critical, a two-second gap then
the attention tone with no dedicated gap after it; when a message is
present, a four-second gap then the message; then a two-second gap and
the end-of-message marker three times with one-second gaps and no
trailing silence. -/
def amendedSections (headerBytes eomBytes : List AfskByte) (att : MultiSineWave)
    (message : Option (List ℝ)) (critical : Bool) : List Section :=
  [Section.AfskBytes headerBytes, Section.Silence 1.0, Section.AfskBytes headerBytes,
   Section.Silence 1.0, Section.AfskBytes headerBytes]
  ++ (match message with
      | some message =>
        (if critical then [Section.Silence 2.0, Section.Tone att] else [])
        ++ [Section.Silence 4.0, Section.Audio message]
      | none => [])
  ++ [Section.Silence 2.0, Section.AfskBytes eomBytes, Section.Silence 1.0,
      Section.AfskBytes eomBytes, Section.Silence 1.0, Section.AfskBytes eomBytes]

/-- A concrete header fixture for the counterexample theorems. -/
def h0 : Header :=
  { originator_code := OriginatorCode.Civ
    event_code := ascii "RWT"
    location_codes := [ascii "048100"]
    purge_time := ascii "0015"
    time_of_issue := ⟨351, 1, 5⟩
    callsign := ascii "WDAF/FM " }

/-- A concrete warning fixture for the counterexample theorems. -/
def w0 : EasWarning :=
  { header := h0, attention_signal := AttentionSignal.SingleTone 9.0 }

/-- A list of reals each of absolute value at most one has a sum of
absolute value at most the length. -/
theorem list_abs_sum_le (l : List ℝ) (h : ∀ x ∈ l, |x| ≤ 1) :
    |l.sum| ≤ (l.length : ℝ) := by
  induction l with
  | nil => simp
  | cons a t ih =>
    have ha := h a (by simp)
    have ht := ih (fun x hx => h x (by simp [hx]))
    have habs : |a + t.sum| ≤ |a| + |t.sum| := abs_add _ _
    simp only [List.sum_cons, List.length_cons]
    push_cast
    linarith

/-- The average of a list of reals each of absolute value at most one has
absolute value at most one; the empty list averages to zero under the
total division of the embedding. -/
theorem avg_abs_le_one (l : List ℝ) (h : ∀ x ∈ l, |x| ≤ 1) :
    |l.sum / (l.length : ℝ)| ≤ 1 := by
  rcases eq_or_ne l [] with rfl | hne
  · simp
  · have hlen : (0 : ℝ) < (l.length : ℝ) := by
      have : l.length ≠ 0 := fun hz => hne (List.eq_nil_of_length_eq_zero hz)
      exact_mod_cast Nat.pos_of_ne_zero this
    rw [abs_div, abs_of_pos hlen, div_le_one hlen]
    exact list_abs_sum_le l h

/-- Every sample the tone generator emits has absolute value at most one:
each is an average of sine values. -/
theorem generate_samples_abs_le (msw : MultiSineWave) (sample_rate : Nat) :
    ∀ x ∈ msw.generate_samples sample_rate, |x| ≤ 1 := by
  intro x hx
  simp only [MultiSineWave.generate_samples, MultiSineWave.oversampled] at hx
  have hx' := List.mem_of_mem_take hx
  obtain ⟨l, hl, rfl⟩ := List.mem_map.mp hx'
  obtain ⟨i, _, rfl⟩ := List.mem_map.mp hl
  apply avg_abs_le_one
  intro y hy
  obtain ⟨f, _, rfl⟩ := List.mem_map.mp hy
  exact Real.abs_sin_le_one _

/-- The oversampled buffer has one sample more than the floored count. -/
theorem oversampled_length (msw : MultiSineWave) (sample_rate : Nat) :
    (msw.oversampled sample_rate).length
      = (⌊(sample_rate : ℚ) * msw.seconds⌋).toNat + 1 := by
  simp [MultiSineWave.oversampled]

/-- The tone generator emits exactly the floored sample count. -/
theorem generate_samples_length (msw : MultiSineWave) (sample_rate : Nat) :
    (msw.generate_samples sample_rate).length
      = (⌊(sample_rate : ℚ) * msw.seconds⌋).toNat := by
  simp [MultiSineWave.generate_samples, MultiSineWave.oversampled, List.length_take]

/-- When at least one sample is emitted, the first sample is exactly
zero: the phase at index zero vanishes for every frequency. -/
theorem generate_samples_getElem_zero (msw : MultiSineWave) (sample_rate : Nat)
    (h : 1 ≤ (⌊(sample_rate : ℚ) * msw.seconds⌋).toNat) :
    (msw.generate_samples sample_rate)[0]? = some 0 := by
  obtain ⟨k, hk⟩ : ∃ k, (⌊(sample_rate : ℚ) * msw.seconds⌋).toNat = k + 1 :=
    ⟨(⌊(sample_rate : ℚ) * msw.seconds⌋).toNat - 1, by omega⟩
  simp only [MultiSineWave.generate_samples, MultiSineWave.oversampled, hk]
  rw [show k + 1 + 1 - 1 = k + 1 by rfl, List.range_succ_eq_map,
    List.map_cons, List.map_cons, List.take_cons]
  · simp [List.sum_eq_zero]
  · omega

/-- The checked averaging division returns the finite quotient whenever
the list is non-empty. -/
theorem checkedDiv_avg (l : List ℝ) (h : l.length ≠ 0) :
    checkedDiv l.sum (l.length : ℝ) = some (l.sum / (l.length : ℝ)) := by
  rw [checkedDiv, if_neg (by exact_mod_cast h)]

/-- For a non-empty frequency list the checked generator agrees with the
plain one sample for sample: every average then has a positive divisor,
so checkedDiv returns the finite quotient. -/
theorem generate_samplesChecked_eq_map (msw : MultiSineWave) (sample_rate : Nat)
    (hfreq : msw.frequencies ≠ []) :
    msw.generate_samplesChecked sample_rate
      = (msw.generate_samples sample_rate).map some := by
  simp only [MultiSineWave.generate_samplesChecked, MultiSineWave.generate_samples,
    MultiSineWave.oversampledChecked, MultiSineWave.oversampled, List.map_take,
    List.map_map]
  congr 1
  apply List.map_congr_left
  intro i _
  simp only [Function.comp_apply]
  exact checkedDiv_avg _ (by simpa using hfreq)

/-- The originator table rewritten through the byte-level table. -/
theorem to_afsk_bytes_eq_ascii (org : OriginatorCode) :
    org.to_afsk_bytes = (originatorAscii org).map AfskByte.ofByte := by
  cases org <;> rfl

/-- Claim C5: for every duration, the single and combined attention-signal
constructors return an absent result exactly when the duration is below
eight seconds, and on success the tone request carries the duration with
frequency list 1050 for single and 853, 960 for combined. -/
theorem c5_attention_signal_contract (d : ℚ) :
    ((AttentionSignal.single d).isNone ↔ d < 8.0)
    ∧ ((AttentionSignal.combined d).isNone ↔ d < 8.0)
    ∧ ((AttentionSignal.single d).map AttentionSignal.toMsw
        = if d < 8.0 then none else some ⟨d, [1050.0]⟩)
    ∧ ((AttentionSignal.combined d).map AttentionSignal.toMsw
        = if d < 8.0 then none else some ⟨d, [853.0, 960.0]⟩) := by
  unfold AttentionSignal.single AttentionSignal.combined
  by_cases hd : d < 8.0 <;> simp [hd, AttentionSignal.toMsw]

/-- Claim C6: header construction validation rejects a location-code list
exactly when it has more than thirty-one entries and otherwise returns the
list unchanged, never truncated; in particular thirty-two codes fail and
thirty-one succeed. -/
theorem c6_location_codes_validation :
    (∀ codes : List (List Nat), Header.validateLocationCodes codes
        = if codes.length ≤ 31 then Except.ok codes else Except.error ())
    ∧ Header.validateLocationCodes (List.replicate 32 (ascii "048100")) = Except.error ()
    ∧ Header.validateLocationCodes (List.replicate 31 (ascii "048100"))
        = Except.ok (List.replicate 31 (ascii "048100")) := by
  refine ⟨fun codes => rfl, rfl, rfl⟩

/-- Claim C9: the EAS-participant originator renders to the bytes WAS and
not EAS, while Pep, Civ, Wxr and Ean render to PEP, CIV, WXR and EAN. -/
theorem c9_originator_byte_table :
    OriginatorCode.to_afsk_bytes .Eas = (ascii "WAS").map AfskByte.ofByte
    ∧ OriginatorCode.to_afsk_bytes .Eas ≠ (ascii "EAS").map AfskByte.ofByte
    ∧ OriginatorCode.to_afsk_bytes .Pep = (ascii "PEP").map AfskByte.ofByte
    ∧ OriginatorCode.to_afsk_bytes .Civ = (ascii "CIV").map AfskByte.ofByte
    ∧ OriginatorCode.to_afsk_bytes .Wxr = (ascii "WXR").map AfskByte.ofByte
    ∧ OriginatorCode.to_afsk_bytes .Ean = (ascii "EAN").map AfskByte.ofByte := by
  refine ⟨rfl, by decide, rfl, rfl, rfl, rfl⟩

/-- Claim C10: EasWarning::new never fails: the fixed nine-second duration
meets the eight-second minimum, so the inner constructor always succeeds,
with the variant selected by the flag. -/
theorem c10_new_never_fails (header : Header) (attsig_combined : Bool) :
    EasWarning.new header attsig_combined
      = some ⟨header, if attsig_combined then AttentionSignal.CombinedTone 9.0
                      else AttentionSignal.SingleTone 9.0⟩
    ∧ ¬ ((9.0 : ℚ) < 8.0) := by
  constructor
  · cases attsig_combined <;>
      simp [EasWarning.new, AttentionSignal.single, AttentionSignal.combined,
        show ¬ ((9.0 : ℚ) < 8.0) by norm_num]
  · norm_num

/-- Claim C4: a byte decomposes into eight bits least significant first,
a set bit is mark and a clear bit space; a mark renders over the fixed
1.92 millisecond bit period with cycle count four and a space with cycle
count three; and the byte renders as those bit tones concatenated in bit
order. -/
theorem c4_afsk_modulation (byte : Nat) (sample_rate : Nat) :
    (AfskByte.ofByte byte).bits
        = (List.range 8).map (fun k =>
            if byte.testBit k then AfskBit.Mark else AfskBit.Space)
    ∧ AfskBit.toMsw .Mark = ⟨1.92 / 1000, [4 / (1.92 / 1000)]⟩
    ∧ AfskBit.toMsw .Space = ⟨1.92 / 1000, [3 / (1.92 / 1000)]⟩
    ∧ ((AfskBit.toMsw .Mark).frequencies.map (fun f => f * (AfskBit.toMsw .Mark).seconds))
        = [4]
    ∧ ((AfskBit.toMsw .Space).frequencies.map (fun f => f * (AfskBit.toMsw .Space).seconds))
        = [3]
    ∧ Section.render (Section.AfskBytes [AfskByte.ofByte byte]) sample_rate
        = ((AfskByte.ofByte byte).bits.map (fun bit =>
            bit.toMsw.generate_samples sample_rate)).flatten := by
  refine ⟨rfl, ?_, ?_, ?_, ?_, ?_⟩
  · norm_num [AfskBit.toMsw, MultiSineWave.single_from_cycles_and_seconds,
      MultiSineWave.mk.injEq]
  · norm_num [AfskBit.toMsw, MultiSineWave.single_from_cycles_and_seconds,
      MultiSineWave.mk.injEq]
  · norm_num [AfskBit.toMsw, MultiSineWave.single_from_cycles_and_seconds]
  · norm_num [AfskBit.toMsw, MultiSineWave.single_from_cycles_and_seconds]
  · simp [Section.render]

/-- Claim C3: for a positive sample rate, positive duration and non-empty
frequency list with floored sample count N at least two, the tone generator
returns exactly N samples, all within minus one and one, with first sample
exactly zero, and the output is the N plus one entry oversampled buffer of
sample-wise frequency averages with its trailing sample dropped. -/
theorem c3_tone_generator_spec (sample_rate : Nat) (seconds : ℚ) (frequencies : List ℚ)
    (hsr : 0 < sample_rate) (hsec : 0 < seconds) (hfreq : frequencies ≠ [])
    (hN : 2 ≤ (⌊(sample_rate : ℚ) * seconds⌋).toNat) :
    ((MultiSineWave.mk seconds frequencies).generate_samples sample_rate).length
        = (⌊(sample_rate : ℚ) * seconds⌋).toNat
    ∧ (∀ x ∈ (MultiSineWave.mk seconds frequencies).generate_samples sample_rate,
        -1 ≤ x ∧ x ≤ 1)
    ∧ ((MultiSineWave.mk seconds frequencies).generate_samples sample_rate)[0]?
        = some 0
    ∧ (MultiSineWave.mk seconds frequencies).generate_samples sample_rate
        = ((MultiSineWave.mk seconds frequencies).oversampled sample_rate).take
            ((⌊(sample_rate : ℚ) * seconds⌋).toNat)
    ∧ ((MultiSineWave.mk seconds frequencies).oversampled sample_rate).length
        = (⌊(sample_rate : ℚ) * seconds⌋).toNat + 1 := by
  refine ⟨generate_samples_length _ _, ?_, ?_, rfl, oversampled_length _ _⟩
  · intro x hx
    exact abs_le.mp (generate_samples_abs_le _ _ x hx)
  · exact generate_samples_getElem_zero _ _ (le_trans (by norm_num) hN)

/-- Witness for claim C3 at sample rate four, one second, one frequency. -/
theorem c3_tone_generator_spec_witness :
    ((MultiSineWave.mk 1 [1]).generate_samples 4).length = 4 := by
  have h := c3_tone_generator_spec 4 1 [1] (by norm_num) (by norm_num) (by simp)
    (by norm_num)
  have h4 : (⌊((4 : ℕ) : ℚ) * 1⌋).toNat = 4 := by norm_num; rfl
  rw [h4] at h
  exact h.1

/-- Claim C7 counterexample: with an empty frequency list, sample rate
one and one second, the floored count is one and the single retained
sample is the average of an empty list, the f32 quotient 0.0 divided by
0.0: a NaN in the output, not an empty or single-zero sequence. -/
theorem c7_counterexample :
    (⌊((1 : ℕ) : ℚ) * (1 : ℚ)⌋).toNat ≤ 1
    ∧ (MultiSineWave.mk 1 ([] : List ℚ)).generate_samplesChecked 1 = [none] := by
  have h1 : (⌊((1 : ℕ) : ℚ) * (1 : ℚ)⌋).toNat = 1 := by norm_num
  refine ⟨le_of_eq h1, ?_⟩
  simp [MultiSineWave.generate_samplesChecked, MultiSineWave.oversampledChecked,
    checkedDiv, h1, List.range_succ]

/-- Claim C7 as amended: for a non-empty frequency list, when the floored
sample count is at most one the tone generator does not panic and
deterministically returns the empty or the single-zero sample sequence,
with no non-finite value in the output even under the checked averaging
division. -/
theorem c7_degenerate_duration (sample_rate : Nat) (seconds : ℚ) (frequencies : List ℚ)
    (hN : (⌊(sample_rate : ℚ) * seconds⌋).toNat ≤ 1) (hfreq : frequencies ≠ []) :
    ((MultiSineWave.mk seconds frequencies).generate_samples sample_rate = []
      ∨ (MultiSineWave.mk seconds frequencies).generate_samples sample_rate = [(0 : ℝ)])
    ∧ ((MultiSineWave.mk seconds frequencies).generate_samplesChecked sample_rate = []
      ∨ (MultiSineWave.mk seconds frequencies).generate_samplesChecked sample_rate
          = [some (0 : ℝ)]) := by
  have hlen := generate_samples_length (MultiSineWave.mk seconds frequencies) sample_rate
  have hmain : (MultiSineWave.mk seconds frequencies).generate_samples sample_rate = []
      ∨ (MultiSineWave.mk seconds frequencies).generate_samples sample_rate = [(0 : ℝ)] := by
    rcases Nat.le_one_iff_eq_zero_or_eq_one.mp hN with h0 | h1
    · left
      rw [h0] at hlen
      exact List.eq_nil_of_length_eq_zero hlen
    · right
      rw [h1] at hlen
      obtain ⟨a, ha⟩ := List.length_eq_one.mp hlen
      have h00 := generate_samples_getElem_zero (MultiSineWave.mk seconds frequencies)
        sample_rate h1.ge
      rw [ha] at h00
      simp only [List.getElem?_cons_zero, Option.some.injEq] at h00
      rw [ha, h00]
  refine ⟨hmain, ?_⟩
  rw [generate_samplesChecked_eq_map _ _ hfreq]
  rcases hmain with h | h <;> rw [h] <;> simp

/-- Witness for the amended claim C7 at sample rate zero with one
frequency. -/
theorem c7_degenerate_duration_witness :
    ((MultiSineWave.mk 1 [1]).generate_samples 0 = []
      ∨ (MultiSineWave.mk 1 [1]).generate_samples 0 = [(0 : ℝ)])
    ∧ ((MultiSineWave.mk 1 [1]).generate_samplesChecked 0 = []
      ∨ (MultiSineWave.mk 1 [1]).generate_samplesChecked 0 = [some (0 : ℝ)]) :=
  c7_degenerate_duration 0 1 [1] (by norm_num) (by simp)

/-- Claim C2: the header renders to exactly the grammar byte string:
preamble, ZCZC dash, originator, dash, event code, dash before each
location code, plus sign, purge time, dash, the seven-byte issue time,
dash, the callsign with hyphens replaced by backslashes, and a final
dash. -/
theorem c2_header_render_grammar (h : Header) :
    h.render = (headerBytesSpec h).map AfskByte.ofByte
    ∧ (formatJHM h.time_of_issue).length = 7 := by
  refine ⟨?_, rfl⟩
  simp only [Header.render, headerBytesSpec, preamble, to_afsk_bytes_eq_ascii,
    List.flatten_cons, List.flatten_nil, List.map_append, List.map_flatten,
    List.map_map, List.map_replicate, List.append_nil, List.append_assoc]
  rfl

/-- Claim C1 counterexample: with no message and a non-critical warning,
the section list the code builds is not the canonical composition the
claim states; the code uses a two-second gap before the end-of-message
block and no trailing silence, so the lists have different lengths. -/
theorem c1_counterexample :
    EasWarning.sections w0 none false
      ≠ canonicalSections (Header.render w0.header) tail
          (AttentionSignal.toMsw w0.attention_signal) 4.0 none false := by
  intro e
  have hlen := congrArg List.length e
  simp [EasWarning.sections, canonicalSections] at hlen

/-- Claim C1 as amended: the section list is the header three times with
one-second silences between repetitions; then, exactly when the warning is
critical and a message is present, a two-second silence and the
attention-signal tone with no dedicated silence after it; then a
four-second silence followed by the message audio when a message is
present; then a two-second silence followed by the end-of-message marker
three times with one-second silences interleaved and no trailing
silence. -/
theorem c1_amended_composition (w : EasWarning) (message : Option (List ℝ))
    (critical : Bool) :
    w.sections message critical
      = amendedSections w.header.render tail w.attention_signal.toMsw
          message critical := by
  cases message <;> cases critical <;> rfl

/-- Membership in a rendered section list factors through one section. -/
theorem renderSections_bounded (sections : List Section) (sample_rate : Nat)
    (h : ∀ s ∈ sections, ∀ x ∈ s.render sample_rate, -1 ≤ x ∧ x ≤ 1) :
    ∀ x ∈ renderSections sections sample_rate, -1 ≤ x ∧ x ≤ 1 := by
  intro x hx
  simp only [renderSections, List.mem_flatten, List.mem_map] at hx
  obtain ⟨l, ⟨s, hs, rfl⟩, hxl⟩ := hx
  exact h s hs x hxl

/-- Every sample a section emits is within minus one and one, except
possibly for an audio section, whose samples pass through verbatim. -/
theorem section_render_bounded (s : Section) (sample_rate : Nat)
    (haudio : ∀ audio, s = Section.Audio audio → ∀ x ∈ audio, -1 ≤ x ∧ x ≤ 1) :
    ∀ x ∈ s.render sample_rate, -1 ≤ x ∧ x ≤ 1 := by
  intro x hx
  match s with
  | .Silence seconds =>
    simp only [Section.render] at hx
    rw [List.eq_of_mem_replicate hx]
    norm_num
  | .Audio audio => exact haudio audio rfl x hx
  | .Tone msw =>
    simp only [Section.render] at hx
    exact abs_le.mp (generate_samples_abs_le _ _ x hx)
  | .AfskBytes bytes =>
    simp only [Section.render, List.mem_flatten, List.mem_map] at hx
    obtain ⟨l, ⟨bit, _, rfl⟩, hxl⟩ := hx
    exact abs_le.mp (generate_samples_abs_le _ _ x hxl)

/-- An audio section appears in the built section list only as the given
message. -/
theorem audio_mem_sections (w : EasWarning) (message : Option (List ℝ))
    (critical : Bool) (audio : List ℝ)
    (h : Section.Audio audio ∈ w.sections message critical) :
    message = some audio := by
  cases message <;> cases critical <;> simp_all [EasWarning.sections]

/-- Claim C8 counterexample: message audio passes into the output
verbatim, so a message sample of two produces an output sample of two,
outside the claimed range. -/
theorem c8_counterexample :
    ¬ (∀ x ∈ EasWarning.construct w0 100 (some [2]) true, -1 ≤ x ∧ x ≤ 1) := by
  intro hall
  have h2 : (2 : ℝ) ∈ EasWarning.construct w0 100 (some [2]) true := by
    simp only [EasWarning.construct, renderSections, List.mem_flatten]
    refine ⟨[2], List.mem_map.mpr ⟨Section.Audio [2], ?_, rfl⟩, by simp⟩
    simp [EasWarning.sections]
  have := (hall 2 h2).2
  norm_num at this

/-- Claim C8 as amended: provided every sample of the optional message
lies within minus one and one, every sample of the constructed output does
too; silences are zero and every tone is an average of sines. -/
theorem c8_amended_output_bounded (w : EasWarning) (sample_rate : Nat)
    (message : Option (List ℝ)) (critical : Bool)
    (hmsg : ∀ m ∈ message, ∀ x ∈ m, -1 ≤ x ∧ x ≤ 1) :
    ∀ x ∈ w.construct sample_rate message critical, -1 ≤ x ∧ x ≤ 1 := by
  intro x hx
  refine renderSections_bounded _ _ ?_ x hx
  intro s hs
  refine section_render_bounded s sample_rate ?_
  intro audio heq
  subst heq
  have hmem := audio_mem_sections w message critical audio hs
  exact hmsg audio (Option.mem_def.mpr hmem)

/-- Witness for the amended claim C8: a concrete warning with no message
at sample rate one hundred; the zero sample from the leading silence of
the end-of-message block is within bounds. -/
theorem c8_amended_output_bounded_witness : -1 ≤ (0 : ℝ) ∧ (0 : ℝ) ≤ 1 := by
  refine c8_amended_output_bounded w0 100 none false (by simp) 0 ?_
  simp only [EasWarning.construct, renderSections, List.mem_flatten]
  refine ⟨(Section.Silence 2.0).render 100,
    List.mem_map.mpr ⟨Section.Silence 2.0, ?_, rfl⟩, ?_⟩
  · simp [EasWarning.sections]
  · simp only [Section.render]
    refine List.mem_replicate.mpr ⟨?_, rfl⟩
    norm_num

end Same
